import Mathlib

/-!
Verification development for the tapestry-controller repository.

The definitions below are shallow embeddings of the Python sources:

* `Tapestry.Geometry`       — `src/tapestry/geometry.py`
* `Tapestry.QRGen`          — `src/tapestry/qr_generation.py`
* `Tapestry.Detect`         — `src/tapestry/position_detection.py`
* `Tapestry.Perspective`    — `src/tapestry/perspective_correction.py`
* `Tapestry.Controller`     — `src/tapestry/controller.py`

Machine integers are modelled as `ℤ`/`ℕ` (Python integers are unbounded),
Python floats are modelled as `ℝ` where the code uses transcendental
functions (`sqrt`, `acos`, `atan2`, `cos`, `sin`) and as `ℚ` where the
arithmetic is purely rational.  Fallible code returns `Option`/`Except`.
The file lists all definitions first and then all theorems.
-/

namespace Tapestry

namespace Geometry

/-- The `Dimensions` from `geometry.py`: a width/height pair of Python ints. -/
structure Dimensions where
  width : ℤ
  height : ℤ
deriving DecidableEq, Repr

/-- The `Point` from `geometry.py`: an (x, y) pair of Python ints. -/
structure Point where
  x : ℤ
  y : ℤ
deriving DecidableEq, Repr

/-- The `Point.__add__` from `geometry.py`: translates a point by a
`Dimensions` value. -/
def Point.add (p : Point) (d : Dimensions) : Point :=
  { x := p.x + d.width, y := p.y + d.height }

/-- The `Rectangle` from `geometry.py`: an axis-aligned rectangle given by its
start corner and its dimensions.  The source type has no rotation field. -/
structure Rectangle where
  start : Point
  dimensions : Dimensions
deriving DecidableEq, Repr

/-- The `Rectangle.get_corners` from `geometry.py`: returns the list
`[self.start, self.start + self.dimensions]` — two points, the start
corner and the diagonally opposite corner. -/
def Rectangle.get_corners (r : Rectangle) : List Point :=
  [r.start, r.start.add r.dimensions]

/-- The four geometric corners of an axis-aligned rectangle (not computed
by the source; used to state enclosure/tightness of the bounding box
against every corner of the rectangle). -/
def Rectangle.geomCorners (r : Rectangle) : List Point :=
  [ { x := r.start.x, y := r.start.y },
    { x := r.start.x + r.dimensions.width, y := r.start.y },
    { x := r.start.x, y := r.start.y + r.dimensions.height },
    { x := r.start.x + r.dimensions.width, y := r.start.y + r.dimensions.height } ]

/-- Minimum of the nonempty list `x :: xs` of ints, as Python `min`. -/
def listMin (x : ℤ) (xs : List ℤ) : ℤ := xs.foldl min x

/-- Maximum of the nonempty list `x :: xs` of ints, as Python `max`. -/
def listMax (x : ℤ) (xs : List ℤ) : ℤ := xs.foldl max x

/-- The `Rectangle.bounding_rectangle` from `geometry.py`: flattens the
`get_corners` of every input rectangle and builds the axis-aligned
rectangle spanning `[min x, max x] × [min y, max y]` of those corner
points.  On an empty input the source raises (Python `min()` of an empty
sequence); that failure is modelled by `none`. -/
def Rectangle.bounding_rectangle (rectangles : List Rectangle) : Option Rectangle :=
  match (rectangles.map Rectangle.get_corners).flatten with
  | [] => none
  | p :: ps =>
    some { start := { x := listMin p.x (ps.map Point.x),
                      y := listMin p.y (ps.map Point.y) },
           dimensions := { width := listMax p.x (ps.map Point.x) - listMin p.x (ps.map Point.x),
                           height := listMax p.y (ps.map Point.y) - listMin p.y (ps.map Point.y) } }

/-- What C5 asserts of the bounding rectangle `b` of `rectangles`: it
encloses every corner of every input rectangle and is the tightest
axis-aligned box doing so. -/
def BoundingSpec (rectangles : List Rectangle) (b : Rectangle) : Prop :=
  (∀ r ∈ rectangles, ∀ c ∈ r.geomCorners,
    b.start.x ≤ c.x ∧ c.x ≤ b.start.x + b.dimensions.width ∧
    b.start.y ≤ c.y ∧ c.y ≤ b.start.y + b.dimensions.height) ∧
  (∀ x0 x1 y0 y1 : ℤ,
    (∀ r ∈ rectangles, ∀ c ∈ r.geomCorners, x0 ≤ c.x ∧ c.x ≤ x1 ∧ y0 ≤ c.y ∧ c.y ≤ y1) →
    x0 ≤ b.start.x ∧ b.start.x + b.dimensions.width ≤ x1 ∧
    y0 ≤ b.start.y ∧ b.start.y + b.dimensions.height ≤ y1)

/-- What the amended C9 asserts of `get_corners`: it returns exactly two
points, the start corner (top-left) and `start + dimensions`
(bottom-right) of the axis-aligned rectangle, both of which are corners
of that rectangle; no rotation is involved (the type has none). -/
def CornersSpec (r : Rectangle) : Prop :=
  r.get_corners.length = 2 ∧
  r.get_corners = [{ x := r.start.x, y := r.start.y },
                   { x := r.start.x + r.dimensions.width,
                     y := r.start.y + r.dimensions.height }] ∧
  ∀ q ∈ r.get_corners, q ∈ r.geomCorners

/-- Concrete input used by the C5 witness. -/
def c5Rects : List Rectangle :=
  [ { start := { x := 0, y := 0 }, dimensions := { width := 2, height := 1 } },
    { start := { x := 5, y := -1 }, dimensions := { width := 1, height := 4 } } ]

end Geometry

namespace QRGen

/-- The keys of the screen-type registry `SCREEN_TYPES` of
`screen_types.py` (the tapestry registry carries only name, description
and connector — no physical dimensions). -/
def SCREEN_TYPES : List String := ["ED060XC3", "ED097TC2"]

/-- The `int(min(width, height) * 0.75)` from `qr_generation.py` line 94.
The float product is exact (0.75 = 3/4 is a dyadic rational) and Python
`int()` truncates toward zero, so for natural inputs this is
`3 * min width height / 4` with natural division. -/
def target_size (width height : ℕ) : ℕ := 3 * min width height / 4

/-- A minimal JSON value type: the payload object of this system holds
only strings and integers. -/
inductive JsonValue where
  | str (s : String)
  | num (n : ℤ)
deriving DecidableEq, Repr

/-- The JSON object serialized into the QR payload by
`generate_positioning_qr_image` (`qr_generation.py` lines 97–103).  Note
the device identity is stored under the key `"host"`.  The external
`json` module round-trips such an object exactly
(`json.loads(json.dumps(d)) == d`), so the wire string
`"DIGINK:" + json.dumps(...)` is modelled at the key-value level. -/
def qr_json_data (ip screen_type_name : String) (width height : ℕ) :
    List (String × JsonValue) :=
  [("host", .str ip),
   ("screen_type", .str screen_type_name),
   ("screen_width_px", .num width),
   ("screen_height_px", .num height),
   ("qr_size_px", .num (target_size width height))]

/-- The two failure modes of `generate_positioning_qr_image`:
`ValueError("Unknown screen type: ...")` at line 91 and
`Exception("QR code too small ...")` at line 123 (the spec's
`EncodingTooSmallError`). -/
inductive QRGenError where
  | unknownScreenType
  | tooSmall
deriving DecidableEq, Repr

/-- The result of a successful `generate_positioning_qr_image` call: a
1-bit canvas of the declared panel resolution with the QR bitmap of side
`qr_size` pasted centered at `(qr_x, qr_y)`. -/
structure QRImage where
  canvas_width : ℕ
  canvas_height : ℕ
  qr_size : ℕ
  qr_x : ℤ
  qr_y : ℤ
  payload : List (String × JsonValue)
deriving DecidableEq, Repr

/-- The `generate_positioning_qr_image` from `qr_generation.py`
(lines 84–142).  `modules_count` is the module count the external
`qrcode` library chooses for the serialized payload
(`qr.modules_count`); it is a parameter of the model.  The hard
legibility floor is `min_module_size = 3` pixels per module (line 119):
the call fails when `target_size < modules_count * 3`.  Centering uses
Python floor division `//` (lines 131–132). -/
def generate_positioning_qr_image (modules_count : ℕ) (ip screen_type_name : String)
    (width height : ℕ) : Except QRGenError QRImage :=
  if screen_type_name ∉ SCREEN_TYPES then .error .unknownScreenType
  else
    let ts := target_size width height
    if ts < modules_count * 3 then .error .tooSmall
    else .ok { canvas_width := width, canvas_height := height, qr_size := ts,
               qr_x := Int.fdiv ((width : ℤ) - (ts : ℤ)) 2,
               qr_y := Int.fdiv ((height : ℤ) - (ts : ℤ)) 2,
               payload := qr_json_data ip screen_type_name width height }

/-- What the amended C2 asserts of `generate_positioning_qr_image` for a
registered screen type: the marker edge length is the truncation
`int(0.75 * min(width, height))`, the call fails (spec:
`EncodingTooSmallError`) iff that edge length cannot hold the barcode's
module count at ≥ 3 pixels per module, and otherwise it succeeds with a
canvas of the declared resolution. -/
def GenSpec (modules_count : ℕ) (ip screen_type_name : String) (width height : ℕ) : Prop :=
  ((target_size width height : ℤ) = ⌊(0.75 : ℚ) * ((min width height : ℕ) : ℚ)⌋) ∧
  (generate_positioning_qr_image modules_count ip screen_type_name width height
      = .error .tooSmall ↔ target_size width height < 3 * modules_count) ∧
  (3 * modules_count ≤ target_size width height →
    generate_positioning_qr_image modules_count ip screen_type_name width height
      = .ok { canvas_width := width, canvas_height := height,
              qr_size := target_size width height,
              qr_x := Int.fdiv ((width : ℤ) - (target_size width height : ℤ)) 2,
              qr_y := Int.fdiv ((height : ℤ) - (target_size width height : ℤ)) 2,
              payload := qr_json_data ip screen_type_name width height })

end QRGen

namespace Detect

/-- The payload fields `detect_qr_positions` extracts from the decoded
JSON object (`position_detection.py` lines 100–105).  Python performs
plain key subscription, so each field is a raw JSON value. -/
structure PayloadFields where
  ip : QRGen.JsonValue
  screen_type : QRGen.JsonValue
  screen_width_px : QRGen.JsonValue
  screen_height_px : QRGen.JsonValue
  qr_size_px : QRGen.JsonValue
deriving DecidableEq, Repr

/-- The payload parse of the Marker Decoder: reads the JSON keys
`'ip'`, `'screen_type'`, `'screen_width_px'`, `'screen_height_px'` and
`'qr_size_px'` (`position_detection.py` lines 101–105).  A missing key
raises `KeyError`, which is caught by the per-QR `except` at line 184:
the detection is skipped.  The skip is modelled by `none`. -/
def parse_digink_payload (d : List (String × QRGen.JsonValue)) : Option PayloadFields := do
  let ip ← List.lookup "ip" d
  let st ← List.lookup "screen_type" d
  let w ← List.lookup "screen_width_px" d
  let h ← List.lookup "screen_height_px" d
  let q ← List.lookup "qr_size_px" d
  pure ⟨ip, st, w, h, q⟩

/-- The `QRPositionData` from `position_detection.py` (lines 15–26): the
per-marker record emitted by `detect_qr_positions`.  Image coordinates
are floats (reals); the payload pixel fields are Python ints. -/
structure QRPositionData where
  hostname : String
  screen_type : String
  center : ℝ × ℝ
  rotation : ℝ
  corners : List (ℝ × ℝ)
  bounding_box : ℝ × ℝ × ℝ × ℝ
  screen_width_px : ℤ
  screen_height_px : ℤ
  qr_size_px : ℤ
  screen_corners : List (ℝ × ℝ)

/-- Python `%` on floats with positive modulus:
`x % m = x − m·⌊x / m⌋`; for `m = 360` the result lies in `[0, 360)`. -/
noncomputable def pyMod (x m : ℝ) : ℝ := x - m * ⌊x / m⌋

/-- The `math.atan2(dy, dx)` modelled as the argument of the complex number
`dx + dy·i` (`Complex.arg`), which agrees with `atan2` on every input
including the origin (`arg 0 = 0 = atan2(0, 0)`). -/
noncomputable def atan2 (dy dx : ℝ) : ℝ := Complex.arg ⟨dx, dy⟩

/-- The `calculate_qr_rotation_from_corners` from `position_detection.py`
(lines 29–53): with fewer than 4 corners it returns `0.0`; otherwise it
takes the angle of the top edge (corner 0 → corner 1) via
`atan2(Δy, Δx)` in degrees, adding 360 when the angle is below −45. -/
noncomputable def calculate_qr_rotation_from_corners (corners : List (ℝ × ℝ)) : ℝ :=
  if corners.length < 4 then 0
  else
    let top_left := corners.getD 0 (0, 0)
    let top_right := corners.getD 1 (0, 0)
    let dx := top_right.1 - top_left.1
    let dy := top_right.2 - top_left.2
    let rotation := atan2 dy dx * (180 / Real.pi)
    if rotation < -45 then rotation + 360 else rotation

/-- The rotation normalization of `detect_qr_positions`
(`position_detection.py` lines 123–132): the raw angle is reduced
`% 360` and mapped to the nearest standard orientation 0°, 90°, 180° or
270°. -/
noncomputable def snap_rotation (rotation : ℝ) : ℝ :=
  let normalized := pyMod rotation 360
  if normalized < 45 ∨ normalized ≥ 315 then 0
  else if 45 ≤ normalized ∧ normalized < 135 then 90
  else if 135 ≤ normalized ∧ normalized < 225 then 180
  else 270

/-- The rotation value stored on every marker emitted by
`detect_qr_positions` (lines 120–132): the raw top-edge angle snapped to
a standard orientation. -/
noncomputable def detect_rotation (corners : List (ℝ × ℝ)) : ℝ :=
  snap_rotation (calculate_qr_rotation_from_corners corners)

/-- Python `min` over the nonempty real list `x :: xs`. -/
noncomputable def rlistMin (x : ℝ) (xs : List ℝ) : ℝ := xs.foldl min x

/-- Python `max` over the nonempty real list `x :: xs`. -/
noncomputable def rlistMax (x : ℝ) (xs : List ℝ) : ℝ := xs.foldl max x

/-- One entry of the `screen_data` list built by
`calculate_physical_positions_from_qr` (`position_detection.py` lines
231–239). -/
structure ScreenData where
  hostname : String
  screen_type : String
  rotation : ℝ
  qr_center : ℝ × ℝ
  screen_top_left : ℝ × ℝ
  screen_width_px : ℝ
  screen_height_px : ℝ

/-- Lines 204–239 of `position_detection.py`: the screen box of one
marker — the axis-aligned bounds of its calculated screen corners.
Markers whose screen-corner list has fewer than 4 points are skipped
(`none`). -/
noncomputable def screenDataOf (d : QRPositionData) : Option ScreenData :=
  match d.screen_corners with
  | [] => none
  | c :: cs =>
    if 4 ≤ (c :: cs).length then
      let min_x := rlistMin c.1 (cs.map Prod.fst)
      let max_x := rlistMax c.1 (cs.map Prod.fst)
      let min_y := rlistMin c.2 (cs.map Prod.snd)
      let max_y := rlistMax c.2 (cs.map Prod.snd)
      some { hostname := d.hostname, screen_type := d.screen_type,
             rotation := d.rotation, qr_center := d.center,
             screen_top_left := (min_x, min_y),
             screen_width_px := max_x - min_x, screen_height_px := max_y - min_y }
    else none

/-- One value of the `positions` dict returned by
`calculate_physical_positions_from_qr` (lines 267–275). -/
structure PositionEntry where
  x : ℝ
  y : ℝ
  rotation : ℝ
  screen_type : String
  scale_factor : ℝ
  detected_width : ℝ
  detected_height : ℝ

/-- The single global scale actually computed at lines 246–248:
`typical_screen_size_mm / avg_screen_size` with the hard-coded
`typical_screen_size_mm = 150` and the mean detected screen pixel width
— the screen types' physical dimensions are not consulted. -/
noncomputable def code_global_scale (screen_data : List ScreenData) : ℝ :=
  150 / ((screen_data.map ScreenData.screen_width_px).sum / screen_data.length)

/-- The minimum detected top-left x over the screen list (line 253). -/
noncomputable def sdMinX (screen_data : List ScreenData) : ℝ :=
  match screen_data with
  | [] => 0
  | s :: ss => rlistMin s.screen_top_left.1 (ss.map (fun t => t.screen_top_left.1))

/-- The minimum detected top-left y over the screen list (line 254). -/
noncomputable def sdMinY (screen_data : List ScreenData) : ℝ :=
  match screen_data with
  | [] => 0
  | s :: ss => rlistMin s.screen_top_left.2 (ss.map (fun t => t.screen_top_left.2))

/-- The `calculate_physical_positions_from_qr` from `position_detection.py`
(lines 194–279): builds the screen boxes, computes the single global
scale `150 / (mean detected pixel width)`, translates all top-left
corners so the minimum maps to a 20-unit margin, and scales.  Empty
input or no usable screens yields the empty dict. -/
noncomputable def calculate_physical_positions_from_qr
    (position_data : List QRPositionData) : List (String × PositionEntry) :=
  match position_data.filterMap screenDataOf with
  | [] => []
  | s :: ss =>
    let screen_data := s :: ss
    let scale_factor := code_global_scale screen_data
    let min_x := sdMinX screen_data
    let min_y := sdMinY screen_data
    screen_data.map (fun sc =>
      (sc.hostname,
       { x := (sc.screen_top_left.1 - min_x) * scale_factor + 20,
         y := (sc.screen_top_left.2 - min_y) * scale_factor + 20,
         rotation := sc.rotation,
         screen_type := sc.screen_type,
         scale_factor := scale_factor,
         detected_width := sc.screen_width_px * scale_factor,
         detected_height := sc.screen_height_px * scale_factor }))

/-- Physical active-area width in millimeters per screen type, from
`src/digink/screen_types.py` — the repository's own physical data for
the two panel models (the tapestry screen-type registry carries no
physical dimensions at all). -/
noncomputable def active_area_width_mm (screen_type : String) : ℝ :=
  if screen_type = "ED060XC3" then 122.37
  else if screen_type = "ED097TC2" then 202.8
  else 0

/-- Modelled from the spec: the mm-per-pixel scale C6 claims — "computed
for each screen as that screen type's known physical active-area size
divided by its corrected pixel size, and these per-screen scales are
averaged into a single global scale" (spec §4.4 Stage D), reading the
physical active-area width over the detected pixel width. -/
noncomputable def spec_global_scale (screen_data : List ScreenData) : ℝ :=
  (screen_data.map
      (fun s => active_area_width_mm s.screen_type / s.screen_width_px)).sum
    / screen_data.length

/-- Relabel the screen type of a screen-data entry (used to state that
the code's global scale does not depend on screen types). -/
def ScreenData.retype (f : String → String) (s : ScreenData) : ScreenData :=
  { s with screen_type := f s.screen_type }

/-- Concrete marker used by the C6 counterexample: screen type ED060XC3,
calculated screen corners spanning a 100 × 50 pixel box at the origin. -/
noncomputable def c6QR : QRPositionData :=
  { hostname := "10.0.0.1", screen_type := "ED060XC3", center := (50, 25),
    rotation := 0, corners := [(20, 5), (80, 5), (80, 45), (20, 45)],
    bounding_box := (20, 5, 80, 45), screen_width_px := 100,
    screen_height_px := 50, qr_size_px := 60,
    screen_corners := [(0, 0), (100, 0), (100, 50), (0, 50)] }

end Detect

namespace Perspective

/-- numpy vector subtraction `p − q` in the plane. -/
noncomputable def vsub (p q : ℝ × ℝ) : ℝ × ℝ := (p.1 - q.1, p.2 - q.2)

/-- The `np.dot` in the plane. -/
noncomputable def dot (u v : ℝ × ℝ) : ℝ := u.1 * v.1 + u.2 * v.2

/-- The `np.linalg.norm` in the plane. -/
noncomputable def norm2 (v : ℝ × ℝ) : ℝ := Real.sqrt (v.1 ^ 2 + v.2 ^ 2)

/-- Length of the quadrilateral side from `p` to `q`
(`calculate_rectangularity_score` lines 36–41). -/
noncomputable def sideLen (p q : ℝ × ℝ) : ℝ := norm2 (vsub q p)

/-- The `np.clip(x, -1.0, 1.0)` (line 56). -/
noncomputable def clip1 (x : ℝ) : ℝ := max (-1) (min 1 x)

/-- The interior angle at vertex `b` between neighbours `a` and `c`
(`calculate_rectangularity_score` lines 44–58): `acos` of the clipped
normalized dot product.  Real division by zero yields 0 in Lean where
Python produces `nan`; in that degenerate case some side length is 0, so
the final score is 0 in both semantics (the side-ratio factor vanishes). -/
noncomputable def angleAt (a b c : ℝ × ℝ) : ℝ :=
  Real.arccos (clip1 (dot (vsub a b) (vsub c b) / (norm2 (vsub a b) * norm2 (vsub c b))))

/-- One factor of the side score (lines 64–69): `min/max` of a pair of
opposite side lengths when the max is positive, else 0. -/
noncomputable def ratioPair (a b : ℝ) : ℝ :=
  if max a b > 0 then min a b / max a b else 0

/-- One factor of the angle score (lines 71–77):
`max(0, 1 − |angle − π/2| / (π/2))`. -/
noncomputable def angleFactor (a b c : ℝ × ℝ) : ℝ :=
  max 0 (1 - |angleAt a b c - Real.pi / 2| / (Real.pi / 2))

/-- The `calculate_rectangularity_score` from `perspective_correction.py`
(lines 24–81) on the four corners `p0 p1 p2 p3` in order: the product of
the two opposite-side ratio factors (`side_score`) and the four angle
factors (`angle_score`). -/
noncomputable def score4 (p0 p1 p2 p3 : ℝ × ℝ) : ℝ :=
  (ratioPair (sideLen p0 p1) (sideLen p2 p3) * ratioPair (sideLen p1 p2) (sideLen p3 p0)) *
  (angleFactor p3 p0 p1 * angleFactor p0 p1 p2 * angleFactor p1 p2 p3 * angleFactor p2 p3 p0)

/-- The `calculate_rectangularity_score` on its list argument: a list that is
not exactly 4 corners scores 0.0 (lines 29–30). -/
noncomputable def calculate_rectangularity_score (corners : List (ℝ × ℝ)) : ℝ :=
  match corners with
  | [p0, p1, p2, p3] => score4 p0 p1 p2 p3
  | _ => 0

/-- A right interior angle at vertex `b`: both edge vectors exist (are
nonzero, so the angle is defined) and are perpendicular. -/
def RightAngleAt (a b c : ℝ × ℝ) : Prop :=
  vsub a b ≠ (0, 0) ∧ vsub c b ≠ (0, 0) ∧ dot (vsub a b) (vsub c b) = 0

/-- A perfect rectangle in the sense of C3: both pairs of opposite sides
have equal lengths and all four interior angles are exactly 90°. -/
def IsPerfectRectangle (p0 p1 p2 p3 : ℝ × ℝ) : Prop :=
  sideLen p0 p1 = sideLen p2 p3 ∧ sideLen p1 p2 = sideLen p3 p0 ∧
  RightAngleAt p3 p0 p1 ∧ RightAngleAt p0 p1 p2 ∧
  RightAngleAt p1 p2 p3 ∧ RightAngleAt p2 p3 p0

/-- The `CorrectedQRData` from `perspective_correction.py` (lines 15–21). -/
structure CorrectedQRData where
  original : Detect.QRPositionData
  corrected_center : ℝ × ℝ
  corrected_corners : List (ℝ × ℝ)
  corrected_screen_corners : List (ℝ × ℝ)
  rectangularity_score : ℝ

/-- A 3 × 3 homography matrix in row-major order. -/
structure Homography where
  m00 : ℝ
  m01 : ℝ
  m02 : ℝ
  m10 : ℝ
  m11 : ℝ
  m12 : ℝ
  m20 : ℝ
  m21 : ℝ
  m22 : ℝ

/-- The `np.eye(3)`: the identity homography (lines 267, 270, 273). -/
noncomputable def idHom : Homography := ⟨1, 0, 0, 0, 1, 0, 0, 0, 1⟩

/-- The `cv2.perspectiveTransform` of a single point under a homography:
projective application with division by the third homogeneous
coordinate. -/
noncomputable def applyHom (H : Homography) (p : ℝ × ℝ) : ℝ × ℝ :=
  let w := H.m20 * p.1 + H.m21 * p.2 + H.m22
  ((H.m00 * p.1 + H.m01 * p.2 + H.m02) / w,
   (H.m10 * p.1 + H.m11 * p.2 + H.m12) / w)

/-- The `calculate_ideal_rectangle` from `perspective_correction.py`
(lines 84–129): the four corners of the rectangle of the given center,
size and rotation (radians), in top-left, top-right, bottom-right,
bottom-left order. -/
noncomputable def calculate_ideal_rectangle (center : ℝ × ℝ)
    (width height rotation : ℝ) : List (ℝ × ℝ) :=
  let hw := width / 2
  let hh := height / 2
  let cos_r := Real.cos rotation
  let sin_r := Real.sin rotation
  [(-hw, -hh), (hw, -hh), (hw, hh), (-hw, hh)].map
    (fun d => (center.1 + (d.1 * cos_r - d.2 * sin_r),
               center.2 + (d.1 * sin_r + d.2 * cos_r)))

/-- The `estimate_best_rectangle_for_screen` from `perspective_correction.py`
(lines 132–183): `(width, height, rotation)` of the best-fit rectangle
for one detected screen.  The source indexes `screen_corners[0..3]`,
which raises on a nonempty list of fewer than 4 points; the model reads
those indexes with a `(0, 0)` default, and the theorems restrict to
decoder-produced markers, which always carry exactly 4 screen corners. -/
noncomputable def estimate_best_rectangle_for_screen (qr : Detect.QRPositionData)
    (known_aspect_ratio : ℝ) : ℝ × ℝ × ℝ :=
  if qr.screen_corners.isEmpty then
    let bb := qr.bounding_box
    let qr_size := (bb.2.2.1 - bb.1 + (bb.2.2.2 - bb.2.1)) / 2
    let estimated_height := qr_size / 0.75
    let estimated_width := estimated_height * known_aspect_ratio
    (estimated_width, estimated_height, qr.rotation * (Real.pi / 180))
  else
    let pts := qr.screen_corners
    let s0 := sideLen (pts.getD 0 (0, 0)) (pts.getD 1 (0, 0))
    let s1 := sideLen (pts.getD 1 (0, 0)) (pts.getD 2 (0, 0))
    let s2 := sideLen (pts.getD 2 (0, 0)) (pts.getD 3 (0, 0))
    let s3 := sideLen (pts.getD 3 (0, 0)) (pts.getD 0 (0, 0))
    let width_estimate := (s0 + s2) / 2
    let height_estimate := (s1 + s3) / 2
    let wh := if width_estimate / height_estimate < known_aspect_ratio
              then (height_estimate, width_estimate)
              else (width_estimate, height_estimate)
    let top_edge := vsub (pts.getD 1 (0, 0)) (pts.getD 0 (0, 0))
    (wh.1, wh.2, Detect.atan2 top_edge.2 top_edge.1)

/-- The `np.median` of a list of reals: middle element of the sorted values,
or the mean of the two middle elements for even length. -/
noncomputable def npMedian (l : List ℝ) : ℝ :=
  let s := l.insertionSort (· ≤ ·)
  let n := s.length
  if n = 0 then 0
  else if n % 2 = 1 then s.getD (n / 2) 0
  else (s.getD (n / 2 - 1) 0 + s.getD (n / 2) 0) / 2

/-- Step 1 of `correct_perspective_distortion` (lines 208–215): the
rectangularity score of each marker, 0.5 for markers without screen
corners. -/
noncomputable def cpdScores (l : List Detect.QRPositionData) : List ℝ :=
  l.map (fun qr => if qr.screen_corners.isEmpty then 0.5
                   else calculate_rectangularity_score qr.screen_corners)

/-- Steps 3–4 (lines 223–231): the per-screen `(width, height, rotation)`
estimates. -/
noncomputable def cpdEstimates (l : List Detect.QRPositionData)
    (known_aspect_ratio : ℝ) : List (ℝ × ℝ × ℝ) :=
  l.map (fun qr => estimate_best_rectangle_for_screen qr known_aspect_ratio)

/-- Step 4 (lines 229–231): the median of the estimated widths. -/
noncomputable def cpdMedianScale (l : List Detect.QRPositionData)
    (known_aspect_ratio : ℝ) : ℝ :=
  npMedian ((cpdEstimates l known_aspect_ratio).map (fun e => e.1))

/-- Step 5 (lines 233–252): the collected ideal corners — four per marker
with nonempty screen corners, each ideal rectangle using the median
scale, the fixed aspect ratio and the marker's estimated rotation. -/
noncomputable def cpdIdealCorners (l : List Detect.QRPositionData)
    (known_aspect_ratio : ℝ) : List (ℝ × ℝ) :=
  ((l.zip (cpdEstimates l known_aspect_ratio)).filter
      (fun qe => !qe.1.screen_corners.isEmpty)).flatMap
    (fun qe => calculate_ideal_rectangle qe.1.center
      (cpdMedianScale l known_aspect_ratio)
      (cpdMedianScale l known_aspect_ratio / known_aspect_ratio) qe.2.2.2)

/-- Step 5 (line 252): the collected observed screen corners of the same
markers, in the same order. -/
noncomputable def cpdActualCorners (l : List Detect.QRPositionData) : List (ℝ × ℝ) :=
  (l.filter (fun qr => !qr.screen_corners.isEmpty)).flatMap
    (fun qr => qr.screen_corners)

/-- Step 6 (lines 254–273): the homography — the external robust
estimator's result when at least 8 ideal corner points were collected
and it succeeds, else the identity (`np.eye(3)`); `fit` models
`cv2.findHomography(actual, ideal, cv2.RANSAC)`, with `none` standing
for both a `None` result and a raised error. -/
noncomputable def cpdHomography
    (fit : List (ℝ × ℝ) → List (ℝ × ℝ) → Option Homography)
    (l : List Detect.QRPositionData) (known_aspect_ratio : ℝ) : Homography :=
  if 8 ≤ (cpdIdealCorners l known_aspect_ratio).length then
    (fit (cpdActualCorners l) (cpdIdealCorners l known_aspect_ratio)).getD idHom
  else idHom

/-- The `correct_perspective_distortion` from `perspective_correction.py`
(lines 186–305).  With fewer than 2 markers the input is returned
uncorrected with score 1.0 (lines 198–206); otherwise every center,
corner and screen corner is mapped through the homography chosen by
`cpdHomography` (lines 275–305).  The function is total: no error
reaches the caller. -/
noncomputable def correct_perspective_distortion
    (fit : List (ℝ × ℝ) → List (ℝ × ℝ) → Option Homography)
    (l : List Detect.QRPositionData) (known_aspect_ratio : ℝ) :
    List CorrectedQRData :=
  if l.length < 2 then
    l.map (fun qr => ⟨qr, qr.center, qr.corners, qr.screen_corners, 1⟩)
  else
    let H := cpdHomography fit l known_aspect_ratio
    (l.zip (cpdScores l)).map (fun qs =>
      ⟨qs.1, applyHom H qs.1.center, qs.1.corners.map (applyHom H),
       qs.1.screen_corners.map (applyHom H), qs.2⟩)

/-- Fallback case: "falls back to the identity transform": every corrected center,
corner and screen corner of the output equals the original. -/
def IdentityCorrected (fit : List (ℝ × ℝ) → List (ℝ × ℝ) → Option Homography)
    (l : List Detect.QRPositionData) (known_aspect_ratio : ℝ) : Prop :=
  (correct_perspective_distortion fit l known_aspect_ratio).map
      CorrectedQRData.corrected_center = l.map Detect.QRPositionData.center ∧
  (correct_perspective_distortion fit l known_aspect_ratio).map
      CorrectedQRData.corrected_corners = l.map Detect.QRPositionData.corners ∧
  (correct_perspective_distortion fit l known_aspect_ratio).map
      CorrectedQRData.corrected_screen_corners
    = l.map Detect.QRPositionData.screen_corners

/-- Fitted case: "a homography is fitted": every corrected center, corner and screen
corner of the output is the original mapped through `H`. -/
def HomCorrected (fit : List (ℝ × ℝ) → List (ℝ × ℝ) → Option Homography)
    (l : List Detect.QRPositionData) (known_aspect_ratio : ℝ) (H : Homography) : Prop :=
  (correct_perspective_distortion fit l known_aspect_ratio).map
      CorrectedQRData.corrected_center = l.map (fun qr => applyHom H qr.center) ∧
  (correct_perspective_distortion fit l known_aspect_ratio).map
      CorrectedQRData.corrected_corners
    = l.map (fun qr => qr.corners.map (applyHom H)) ∧
  (correct_perspective_distortion fit l known_aspect_ratio).map
      CorrectedQRData.corrected_screen_corners
    = l.map (fun qr => qr.screen_corners.map (applyHom H))

/-- What C4 asserts of `correct_perspective_distortion`: it is total (one
output per input, each keeping its original), falls back to the identity
transform with fewer than 2 markers, with fewer than 8 collected corner
correspondences, or when the homography fit fails, applies the fitted
homography when the fit succeeds on ≥ 8 correspondences, and for
decoder-produced markers (4 screen corners each) always has 4
correspondences per marker available, so with ≥ 2 markers the estimator
is consulted. -/
def CorrectionSpec (fit : List (ℝ × ℝ) → List (ℝ × ℝ) → Option Homography)
    (l : List Detect.QRPositionData) (known_aspect_ratio : ℝ) : Prop :=
  (correct_perspective_distortion fit l known_aspect_ratio).length = l.length ∧
  (correct_perspective_distortion fit l known_aspect_ratio).map
      CorrectedQRData.original = l ∧
  (l.length < 2 → IdentityCorrected fit l known_aspect_ratio) ∧
  (2 ≤ l.length → (cpdIdealCorners l known_aspect_ratio).length < 8 →
    IdentityCorrected fit l known_aspect_ratio) ∧
  (2 ≤ l.length →
    fit (cpdActualCorners l) (cpdIdealCorners l known_aspect_ratio) = none →
    IdentityCorrected fit l known_aspect_ratio) ∧
  (∀ H, 2 ≤ l.length → 8 ≤ (cpdIdealCorners l known_aspect_ratio).length →
    fit (cpdActualCorners l) (cpdIdealCorners l known_aspect_ratio) = some H →
    HomCorrected fit l known_aspect_ratio H) ∧
  ((∀ qr ∈ l, qr.screen_corners.length = 4) →
    (cpdIdealCorners l known_aspect_ratio).length = 4 * l.length)

end Perspective

namespace Controller

/-- Python `int()` applied to an exact rational: truncation toward zero
(`Int.div` is T-division; the rationals produced by the controller are
exact, see `mm_to_px_ratio`). -/
def pyInt (q : ℚ) : ℤ := Int.tdiv q.num (q.den : ℤ)

/-- Modelled from the spec: the per-panel placement record (§3 "Panel
Placement") consumed by `TapestryController` — `models.py` itself is
absent from the sources, but the field set is fixed by its consumers
(`controller.py` lines 18–24 and 62–64) and by its producer
`generate_updated_config` (`position_detection.py` lines 294–308):
host, placement coordinates, detected dimensions and rotation, all
Python ints in millimeters (pixels for rotation: degrees). -/
structure Device where
  host : String
  coordX : ℤ
  coordY : ℤ
  detectedWidth : ℤ
  detectedHeight : ℤ
  rotation : ℤ
deriving DecidableEq, Repr

/-- The `send_image` lines 18–25: the millimeter rectangle of one device. -/
def deviceRectMm (d : Device) : Geometry.Rectangle :=
  { start := { x := d.coordX, y := d.coordY },
    dimensions := { width := d.detectedWidth, height := d.detectedHeight } }

/-- The `_scale_image_to_layout` lines 79–87: the dimension-limiting scale
factor `min(image_width / layout_width, image_height / layout_height)`.
Python float division is modelled exactly in `ℚ`; Python raises
`ZeroDivisionError` on a degenerate layout, so the theorems assume
positive layout dimensions, under which the model agrees. -/
def mm_to_px_ratio (imageW imageH : ℤ) (layout : Geometry.Dimensions) : ℚ :=
  min ((imageW : ℚ) / (layout.width : ℚ)) ((imageH : ℚ) / (layout.height : ℚ))

/-- The `_scale_image_to_layout` lines 90–98: the scaled image has exactly
the target size `(int(layout_width * ratio), int(layout_height * ratio))`
(`PIL.ImageOps.fit` returns an image of the requested size). -/
def scaledImageSize (imageW imageH : ℤ) (layout : Geometry.Dimensions) : ℤ × ℤ :=
  (pyInt ((layout.width : ℚ) * mm_to_px_ratio imageW imageH layout),
   pyInt ((layout.height : ℚ) * mm_to_px_ratio imageW imageH layout))

/-- The `send_image` lines 44–53: the device's pixel sub-rectangle within the
scaled image — position `(placement − bounding origin) × ratio` and size
`detected_size × ratio`, each coordinate truncated to an integer. -/
def deviceRectPx (bounding : Geometry.Rectangle) (ratio : ℚ) (d : Device) :
    Geometry.Rectangle :=
  { start := { x := pyInt (((d.coordX - bounding.start.x : ℤ) : ℚ) * ratio),
               y := pyInt (((d.coordY - bounding.start.y : ℤ) : ℚ) * ratio) },
    dimensions := { width := pyInt ((d.detectedWidth : ℚ) * ratio),
                    height := pyInt ((d.detectedHeight : ℚ) * ratio) } }

/-- The tile returned by `_crop_device_section`, recorded as its pixel
size together with the padding background color (`'white'`, line 121)
when the crop fell short of the expected size. -/
structure Tile where
  width : ℤ
  height : ℤ
  padColor : Option String
deriving DecidableEq, Repr

/-- The `_crop_device_section` lines 102–130 at the level of image sizes:
crop the box clamped to the scaled image; if the cropped size differs
from the expected `(width, height)` of the device rectangle, paste the
crop onto a `'white'` canvas of exactly the expected size. -/
def crop_device_section (scaledW scaledH : ℤ) (rect : Geometry.Rectangle) : Tile :=
  let left := max 0 rect.start.x
  let top := max 0 rect.start.y
  let right := min scaledW (rect.start.x + rect.dimensions.width)
  let bottom := min scaledH (rect.start.y + rect.dimensions.height)
  let croppedW := right - left
  let croppedH := bottom - top
  if croppedW = rect.dimensions.width ∧ croppedH = rect.dimensions.height then
    { width := croppedW, height := croppedH, padColor := none }
  else
    { width := rect.dimensions.width, height := rect.dimensions.height,
      padColor := some "white" }

/-- The `send_image` (lines 13–72) restricted to one device of the layout:
bounding rectangle of all placements, scale ratio, the device's pixel
sub-rectangle, and the cropped tile for that device.  `none` models the
empty-layout case, where the source raises inside `bounding_rectangle`. -/
def send_image_tile (imageW imageH : ℤ) (devices : List Device) (d : Device) :
    Option (Geometry.Rectangle × Tile) :=
  match Geometry.Rectangle.bounding_rectangle (devices.map deviceRectMm) with
  | none => none
  | some bounding =>
    let ratio := mm_to_px_ratio imageW imageH bounding.dimensions
    let scaled := scaledImageSize imageW imageH bounding.dimensions
    let rect := deviceRectPx bounding ratio d
    some (rect, crop_device_section scaled.1 scaled.2 rect)

/-- The `draw` from `device.py` (lines 107–134) as seen by the controller: a
transport dispatch that either returns or raises (the wrapper catches,
prints, and re-raises).  Its behavior is a parameter of the model, keyed
by the device host. -/
def DrawFn : Type := String → Except String Unit

/-- The `send_image` lines 41–72: one `threading.Thread(target=draw, ...)` is
started per device and every thread is joined regardless of its siblings'
outcomes; each thread's outcome (return value or exception) is discarded
by `threading`, and the method body has no `return` statement, so the
call returns `None`.  The model records the per-thread outcomes (first
component, in device order) and the value returned to the caller (second
component); the return slot is given the summary-shaped type
`Option (List (host × Bool))` so that C8 is statable, and the faithful
returned value is `none` (Python `None`). -/
def send_image_run (drawFn : DrawFn) (devices : List Device) :
    List (String × Except String Unit) × Option (List (String × Bool)) :=
  (devices.map (fun d => (d.host, drawFn d.host)), none)

/-- What C7 asserts of `send_image` for a device `d` of the layout: the
bounding rectangle exists, the tile computation succeeds, the device's
pixel sub-rectangle is `(placement − bounding origin) × ratio` positioned
and `detected_size × ratio` sized (each coordinate truncated to an
integer), the produced tile has exactly those integer pixel dimensions,
and any padding uses the fixed background color `'white'`. -/
def TileSpec (imageW imageH : ℤ) (devices : List Device) (d : Device) : Prop :=
  ∃ bounding rect tile,
    Geometry.Rectangle.bounding_rectangle (devices.map deviceRectMm) = some bounding ∧
    send_image_tile imageW imageH devices d = some (rect, tile) ∧
    rect.start.x = pyInt (((d.coordX - bounding.start.x : ℤ) : ℚ) *
      mm_to_px_ratio imageW imageH bounding.dimensions) ∧
    rect.start.y = pyInt (((d.coordY - bounding.start.y : ℤ) : ℚ) *
      mm_to_px_ratio imageW imageH bounding.dimensions) ∧
    rect.dimensions.width = pyInt ((d.detectedWidth : ℚ) *
      mm_to_px_ratio imageW imageH bounding.dimensions) ∧
    rect.dimensions.height = pyInt ((d.detectedHeight : ℚ) *
      mm_to_px_ratio imageW imageH bounding.dimensions) ∧
    tile.width = rect.dimensions.width ∧
    tile.height = rect.dimensions.height ∧
    (tile.padColor = none ∨ tile.padColor = some "white")

/-- What the amended C8 asserts of `send_image`'s dispatch step: the call
returns `None` (no partial-failure summary), while every device's
dispatch is attempted — the recorded outcomes are exactly one per device
in layout order, regardless of which dispatches fail. -/
def DispatchSpec (drawFn : DrawFn) (devices : List Device) : Prop :=
  (send_image_run drawFn devices).2 = none ∧
  (send_image_run drawFn devices).1 = devices.map (fun d => (d.host, drawFn d.host)) ∧
  ∀ d ∈ devices, (d.host, drawFn d.host) ∈ (send_image_run drawFn devices).1

/-- Concrete first panel of the layout used by the C7 witness and the C8
theorems. -/
def c7Device : Device :=
  { host := "panel-a", coordX := 0, coordY := 0,
    detectedWidth := 122, detectedHeight := 91, rotation := 0 }

/-- Concrete layout used by the C7 witness and the C8 theorems. -/
def c8Devices : List Device :=
  [ c7Device,
    { host := "panel-b", coordX := 150, coordY := 0,
      detectedWidth := 203, detectedHeight := 139, rotation := 180 } ]

/-- A transport behavior in which the dispatch to `panel-a` raises and
the dispatch to `panel-b` succeeds. -/
def c8DrawFailA : DrawFn :=
  fun h => if h = "panel-a" then .error "connection refused" else .ok ()

end Controller

end Tapestry

open Tapestry Geometry

theorem listMin_nil (x : ℤ) : listMin x [] = x := rfl

theorem listMin_cons (x b : ℤ) (bs : List ℤ) :
    listMin x (b :: bs) = listMin (min x b) bs := rfl

theorem listMax_nil (x : ℤ) : listMax x [] = x := rfl

theorem listMax_cons (x b : ℤ) (bs : List ℤ) :
    listMax x (b :: bs) = listMax (max x b) bs := rfl

theorem listMin_le (x : ℤ) (xs : List ℤ) : ∀ a ∈ x :: xs, listMin x xs ≤ a := by
  induction xs generalizing x with
  | nil => intro a ha; simp at ha; simp [listMin, ha]
  | cons b bs ih =>
    intro a ha
    rw [listMin_cons]
    have hmin : listMin (min x b) bs ≤ min x b :=
      ih (min x b) (min x b) (List.mem_cons_self _ _)
    simp only [List.mem_cons] at ha
    rcases ha with ha | ha | ha
    · subst ha; exact le_trans hmin (min_le_left _ _)
    · subst ha; exact le_trans hmin (min_le_right _ _)
    · exact ih (min x b) a (List.mem_cons_of_mem _ ha)

theorem listMin_mem (x : ℤ) (xs : List ℤ) : listMin x xs ∈ x :: xs := by
  induction xs generalizing x with
  | nil => simp [listMin]
  | cons b bs ih =>
    rw [listMin_cons]
    have h' := ih (min x b)
    simp only [List.mem_cons] at h' ⊢
    rcases h' with h' | h'
    · rcases le_total x b with hxb | hxb
      · exact Or.inl (h'.trans (min_eq_left hxb))
      · exact Or.inr (Or.inl (h'.trans (min_eq_right hxb)))
    · exact Or.inr (Or.inr h')

theorem le_listMax (x : ℤ) (xs : List ℤ) : ∀ a ∈ x :: xs, a ≤ listMax x xs := by
  induction xs generalizing x with
  | nil => intro a ha; simp at ha; simp [listMax, ha]
  | cons b bs ih =>
    intro a ha
    rw [listMax_cons]
    have hmax : max x b ≤ listMax (max x b) bs :=
      ih (max x b) (max x b) (List.mem_cons_self _ _)
    simp only [List.mem_cons] at ha
    rcases ha with ha | ha | ha
    · subst ha; exact le_trans (le_max_left _ _) hmax
    · subst ha; exact le_trans (le_max_right _ _) hmax
    · exact ih (max x b) a (List.mem_cons_of_mem _ ha)

theorem listMax_mem (x : ℤ) (xs : List ℤ) : listMax x xs ∈ x :: xs := by
  induction xs generalizing x with
  | nil => simp [listMax]
  | cons b bs ih =>
    rw [listMax_cons]
    have h' := ih (max x b)
    simp only [List.mem_cons] at h' ⊢
    rcases h' with h' | h'
    · rcases le_total x b with hxb | hxb
      · exact Or.inr (Or.inl (h'.trans (max_eq_right hxb)))
      · exact Or.inl (h'.trans (max_eq_left hxb))
    · exact Or.inr (Or.inr h')

theorem mem_flatten_corners (rectangles : List Rectangle) (q : Point) :
    q ∈ (rectangles.map Rectangle.get_corners).flatten ↔
      ∃ r, r ∈ rectangles ∧ q ∈ r.get_corners := by
  simp [List.mem_flatten]

theorem get_corners_mem_geomCorners (r : Rectangle) :
    ∀ q ∈ r.get_corners, q ∈ r.geomCorners := by
  intro q hq
  simp only [Rectangle.get_corners, List.mem_cons, List.not_mem_nil, or_false] at hq
  rcases hq with rfl | rfl
  · simp [Rectangle.geomCorners]
  · simp [Rectangle.geomCorners, Point.add]

theorem geomCorners_coords (r : Rectangle) (c : Point) (hc : c ∈ r.geomCorners) :
    (c.x = r.start.x ∨ c.x = r.start.x + r.dimensions.width) ∧
    (c.y = r.start.y ∨ c.y = r.start.y + r.dimensions.height) := by
  simp only [Rectangle.geomCorners, List.mem_cons, List.not_mem_nil, or_false] at hc
  rcases hc with rfl | rfl | rfl | rfl <;> simp

theorem bounding_rectangle_eq_of_flatten (rectangles : List Rectangle)
    (p : Point) (ps : List Point)
    (h : (rectangles.map Rectangle.get_corners).flatten = p :: ps) :
    Rectangle.bounding_rectangle rectangles =
      some { start := { x := listMin p.x (ps.map Point.x),
                        y := listMin p.y (ps.map Point.y) },
             dimensions := { width := listMax p.x (ps.map Point.x) - listMin p.x (ps.map Point.x),
                             height := listMax p.y (ps.map Point.y) - listMin p.y (ps.map Point.y) } } := by
  unfold Rectangle.bounding_rectangle
  rw [h]

/-- C5. `bounding_rectangle` on a non-empty list of rectangles returns
the axis-aligned rectangle whose extents are `[min x, max x] × [min y, max y]`
over all corners of all input rectangles — the tightest axis-aligned box
enclosing every corner of every input — and on the empty list it fails
(the source raises on `min()` of an empty sequence, modelled as `none`). -/
theorem c5_bounding_rectangle_correct (rectangles : List Rectangle) :
    (rectangles = [] → Rectangle.bounding_rectangle rectangles = none) ∧
    (rectangles ≠ [] → ∃ b, Rectangle.bounding_rectangle rectangles = some b ∧
      BoundingSpec rectangles b) := by
  constructor
  · intro h; subst h; rfl
  · intro hne
    obtain ⟨p, ps, hpts⟩ : ∃ p ps, (rectangles.map Rectangle.get_corners).flatten = p :: ps := by
      rcases hr : rectangles with _ | ⟨r, rest⟩
      · exact absurd hr hne
      · exact ⟨r.start, r.start.add r.dimensions ::
          ((rest.map Rectangle.get_corners).flatten), by simp [Rectangle.get_corners]⟩
    have hxmem : ∀ q ∈ (rectangles.map Rectangle.get_corners).flatten,
        q.x ∈ p.x :: ps.map Point.x := by
      intro q hq
      rw [hpts] at hq
      rcases List.mem_cons.mp hq with rfl | hq
      · exact List.mem_cons_self _ _
      · exact List.mem_cons_of_mem _ (List.mem_map_of_mem _ hq)
    have hymem : ∀ q ∈ (rectangles.map Rectangle.get_corners).flatten,
        q.y ∈ p.y :: ps.map Point.y := by
      intro q hq
      rw [hpts] at hq
      rcases List.mem_cons.mp hq with rfl | hq
      · exact List.mem_cons_self _ _
      · exact List.mem_cons_of_mem _ (List.mem_map_of_mem _ hq)
    have hxattained : ∀ v ∈ p.x :: ps.map Point.x,
        ∃ q ∈ (rectangles.map Rectangle.get_corners).flatten, q.x = v := by
      intro v hv
      rcases List.mem_cons.mp hv with rfl | hv
      · exact ⟨p, by rw [hpts]; exact List.mem_cons_self _ _, rfl⟩
      · obtain ⟨q, hq, hqx⟩ := List.mem_map.mp hv
        exact ⟨q, by rw [hpts]; exact List.mem_cons_of_mem _ hq, hqx⟩
    have hyattained : ∀ v ∈ p.y :: ps.map Point.y,
        ∃ q ∈ (rectangles.map Rectangle.get_corners).flatten, q.y = v := by
      intro v hv
      rcases List.mem_cons.mp hv with rfl | hv
      · exact ⟨p, by rw [hpts]; exact List.mem_cons_self _ _, rfl⟩
      · obtain ⟨q, hq, hqy⟩ := List.mem_map.mp hv
        exact ⟨q, by rw [hpts]; exact List.mem_cons_of_mem _ hq, hqy⟩
    refine ⟨_, bounding_rectangle_eq_of_flatten rectangles p ps hpts, ?_, ?_⟩
    · -- enclosure
      intro r hr c hc
      have hstart : r.start ∈ (rectangles.map Rectangle.get_corners).flatten :=
        (mem_flatten_corners _ _).mpr ⟨r, hr, by simp [Rectangle.get_corners]⟩
      have hadd : r.start.add r.dimensions ∈ (rectangles.map Rectangle.get_corners).flatten :=
        (mem_flatten_corners _ _).mpr ⟨r, hr, by simp [Rectangle.get_corners]⟩
      have h1 := listMin_le p.x (ps.map Point.x) _ (hxmem _ hstart)
      have h2 := le_listMax p.x (ps.map Point.x) _ (hxmem _ hstart)
      have h3 := listMin_le p.x (ps.map Point.x) _ (hxmem _ hadd)
      have h4 := le_listMax p.x (ps.map Point.x) _ (hxmem _ hadd)
      have h5 := listMin_le p.y (ps.map Point.y) _ (hymem _ hstart)
      have h6 := le_listMax p.y (ps.map Point.y) _ (hymem _ hstart)
      have h7 := listMin_le p.y (ps.map Point.y) _ (hymem _ hadd)
      have h8 := le_listMax p.y (ps.map Point.y) _ (hymem _ hadd)
      obtain ⟨hcx, hcy⟩ := geomCorners_coords r c hc
      simp only [Point.add] at h3 h4 h7 h8
      rcases hcx with hcx | hcx <;> rcases hcy with hcy | hcy <;>
        simp only [hcx, hcy] <;> omega
    · -- tightness
      intro x0 x1 y0 y1 hbox
      have hq : ∀ q ∈ (rectangles.map Rectangle.get_corners).flatten,
          x0 ≤ q.x ∧ q.x ≤ x1 ∧ y0 ≤ q.y ∧ q.y ≤ y1 := by
        intro q hqmem
        obtain ⟨r, hr, hqc⟩ := (mem_flatten_corners _ _).mp hqmem
        exact hbox r hr q (get_corners_mem_geomCorners r q hqc)
      obtain ⟨qmin, hqmin, hqminx⟩ := hxattained _ (listMin_mem p.x (ps.map Point.x))
      obtain ⟨qmax, hqmax, hqmaxx⟩ := hxattained _ (listMax_mem p.x (ps.map Point.x))
      obtain ⟨rmin, hrmin, hrminy⟩ := hyattained _ (listMin_mem p.y (ps.map Point.y))
      obtain ⟨rmax, hrmax, hrmaxy⟩ := hyattained _ (listMax_mem p.y (ps.map Point.y))
      have i1 := (hq _ hqmin).1
      have i2 := (hq _ hqmax).2.1
      have i3 := (hq _ hrmin).2.2.1
      have i4 := (hq _ hrmax).2.2.2
      rw [hqminx] at i1
      rw [hqmaxx] at i2
      rw [hrminy] at i3
      rw [hrmaxy] at i4
      refine ⟨i1, ?_, i3, ?_⟩ <;> simp only [] <;> omega

/-- Witness for C5 at a concrete two-rectangle input. -/
theorem c5_witness :
    c5Rects ≠ [] ∧ ∃ b, Rectangle.bounding_rectangle c5Rects = some b ∧
      BoundingSpec c5Rects b :=
  ⟨by decide, (c5_bounding_rectangle_correct c5Rects).2 (by decide)⟩

/-- C9 counterexample: `get_corners` of a concrete rectangle returns 2
points, not the 4 points (top-left, top-right, bottom-left, bottom-right)
the claim describes. -/
theorem c9_counterexample :
    (Rectangle.get_corners { start := { x := 0, y := 0 },
                             dimensions := { width := 3, height := 2 } }).length ≠ 4 := by
  decide

/-- C9 (amended). For every rectangle, `get_corners()` returns exactly
2 points: the start corner (top-left) and `start + dimensions`
(bottom-right).  The `Rectangle` type has no rotation field, so no
rotation is applied; both returned points are corners of the axis-aligned
rectangle. -/
theorem c9_get_corners_amended (r : Rectangle) : CornersSpec r :=
  ⟨rfl, rfl, get_corners_mem_geomCorners r⟩

/-- Witness for the amended C9 at a concrete rectangle. -/
theorem c9_witness :
    CornersSpec { start := { x := 7, y := -2 },
                  dimensions := { width := 3, height := 2 } } :=
  c9_get_corners_amended _

theorem bounding_rectangle_isSome (rectangles : List Rectangle) (hne : rectangles ≠ []) :
    ∃ b, Rectangle.bounding_rectangle rectangles = some b := by
  obtain ⟨p, ps, hpts⟩ : ∃ p ps, (rectangles.map Rectangle.get_corners).flatten = p :: ps := by
    rcases hr : rectangles with _ | ⟨r, rest⟩
    · exact absurd hr hne
    · exact ⟨r.start, r.start.add r.dimensions :: ((rest.map Rectangle.get_corners).flatten),
        by simp [Rectangle.get_corners]⟩
  exact ⟨_, bounding_rectangle_eq_of_flatten rectangles p ps hpts⟩

theorem crop_device_section_size (sW sH : ℤ) (r : Rectangle) :
    (Controller.crop_device_section sW sH r).width = r.dimensions.width ∧
    (Controller.crop_device_section sW sH r).height = r.dimensions.height ∧
    ((Controller.crop_device_section sW sH r).padColor = none ∨
      (Controller.crop_device_section sW sH r).padColor = some "white") := by
  simp only [Controller.crop_device_section]
  split_ifs with h
  · exact ⟨h.1, h.2, Or.inl rfl⟩
  · exact ⟨rfl, rfl, Or.inr rfl⟩

/-- C7. For every source image size and every layout, the pixel
sub-rectangle of each panel is `(placement − bounding origin) ×
mm_to_px_ratio` with size `detected_size × mm_to_px_ratio`, truncated to
integers, and the tile produced for that panel has exactly those integer
pixel dimensions; when the crop falls short of the expected size the
missing area is padded with the fixed background color `'white'` rather
than failing. -/
theorem c7_tile_dimensions_exact (imageW imageH : ℤ) (devices : List Controller.Device)
    (d : Controller.Device) (hd : d ∈ devices) :
    Controller.TileSpec imageW imageH devices d := by
  obtain ⟨b, hb⟩ := bounding_rectangle_isSome (devices.map Controller.deviceRectMm)
    (fun h => (List.ne_nil_of_mem hd) (List.map_eq_nil_iff.mp h))
  have htile : Controller.send_image_tile imageW imageH devices d =
      some (Controller.deviceRectPx b (Controller.mm_to_px_ratio imageW imageH b.dimensions) d,
        Controller.crop_device_section
          (Controller.scaledImageSize imageW imageH b.dimensions).1
          (Controller.scaledImageSize imageW imageH b.dimensions).2
          (Controller.deviceRectPx b (Controller.mm_to_px_ratio imageW imageH b.dimensions) d)) := by
    unfold Controller.send_image_tile
    rw [hb]
  obtain ⟨h1, h2, h3⟩ := crop_device_section_size
    (Controller.scaledImageSize imageW imageH b.dimensions).1
    (Controller.scaledImageSize imageW imageH b.dimensions).2
    (Controller.deviceRectPx b (Controller.mm_to_px_ratio imageW imageH b.dimensions) d)
  exact ⟨b, _, _, hb, htile, rfl, rfl, rfl, rfl, h1, h2, h3⟩

/-- Witness for C7 at a concrete two-panel layout and a 1920 × 1080
source image. -/
theorem c7_witness :
    Controller.c7Device ∈ Controller.c8Devices ∧
    Controller.TileSpec 1920 1080 Controller.c8Devices Controller.c7Device :=
  ⟨by decide, c7_tile_dimensions_exact 1920 1080 Controller.c8Devices _ (by decide)⟩

/-- C8 counterexample: with a concrete two-panel layout in which the
dispatch to `panel-a` raises and the dispatch to `panel-b` succeeds,
`send_image` still returns `None` — the value handed back to the caller
is not a partial-failure summary identifying which panels succeeded and
which failed; it carries no outcome information at all. -/
theorem c8_counterexample :
    (Controller.send_image_run Controller.c8DrawFailA Controller.c8Devices).1 =
      [("panel-a", Except.error "connection refused"), ("panel-b", Except.ok ())] ∧
    (Controller.send_image_run Controller.c8DrawFailA Controller.c8Devices).2 = none := by
  constructor
  · simp [Controller.send_image_run, Controller.c8Devices, Controller.c8DrawFailA,
      Controller.c7Device]
  · rfl

/-- C8 (amended). When panel transport dispatches fail during an
image-tiling send, each failure is caught and logged inside its own
dispatch thread, every sibling dispatch is still attempted (one recorded
outcome per panel, in layout order, whatever the failure pattern), and
the overall `send_image` call returns `None` — no partial-failure
summary, boolean, or other result is returned to the caller. -/
theorem c8_send_image_amended (drawFn : Controller.DrawFn)
    (devices : List Controller.Device) :
    Controller.DispatchSpec drawFn devices :=
  ⟨rfl, rfl, fun _ hd => List.mem_map_of_mem _ hd⟩

/-- Witness for the amended C8 at the concrete failing layout. -/
theorem c8_witness :
    Controller.DispatchSpec Controller.c8DrawFailA Controller.c8Devices :=
  c8_send_image_amended _ _

/-- C1. The Marker Encoder serializes the device identity under the JSON
key `"host"` (`qr_generation.py` line 98) while the Marker Decoder's
payload parse subscripts the key `'ip'` (`position_detection.py` line
101), so decoding an encoded payload raises `KeyError` and the marker is
discarded: decoding composed with encoding is never the identity.  The
external `json` module round-trips the object itself exactly, so the
failure is evaluated at the key-value level on a concrete payload. -/
theorem c1_roundtrip_fails_key_mismatch :
    List.lookup "host" (QRGen.qr_json_data "10.0.0.1" "ED060XC3" 1024 768) =
      some (QRGen.JsonValue.str "10.0.0.1") ∧
    List.lookup "ip" (QRGen.qr_json_data "10.0.0.1" "ED060XC3" 1024 768) = none ∧
    Detect.parse_digink_payload (QRGen.qr_json_data "10.0.0.1" "ED060XC3" 1024 768) = none :=
  ⟨rfl, rfl, rfl⟩

/-- C2 counterexample: at declared resolution 10 × 10 the encoder's
computed marker edge length is `int(10 * 0.75) = 7`, not
`round(0.75 × min(width, height)) = 8` as the claim states; the success
value returned for a barcode of 2 modules per side records edge 7. -/
theorem c2_counterexample :
    QRGen.generate_positioning_qr_image 2 "10.0.0.1" "ED060XC3" 10 10 =
      .ok { canvas_width := 10, canvas_height := 10, qr_size := 7, qr_x := 1, qr_y := 1,
            payload := QRGen.qr_json_data "10.0.0.1" "ED060XC3" 10 10 } ∧
    round ((0.75 : ℚ) * ((min 10 10 : ℕ) : ℚ)) = 8 := by
  refine ⟨rfl, ?_⟩
  norm_num [round_eq]

/-- C2 (amended). For a registered screen type, the Marker Encoder
computes marker edge length `int(0.75 × min(width, height))` (truncation,
not `round`), fails iff that edge cannot hold the generated barcode's
module count at ≥ 3 pixels per module, and otherwise succeeds with a
bitmap of the declared resolution. -/
theorem c2_generate_qr_amended (modules_count : ℕ) (ip screen_type_name : String)
    (width height : ℕ) (hst : screen_type_name ∈ QRGen.SCREEN_TYPES) :
    QRGen.GenSpec modules_count ip screen_type_name width height := by
  refine ⟨?_, ?_, ?_⟩
  · have h1 : (0.75 : ℚ) * ((min width height : ℕ) : ℚ)
        = ((3 * min width height : ℕ) : ℚ) / ((4 : ℕ) : ℚ) := by
      push_cast
      ring
    rw [h1, ← Int.natCast_floor_eq_floor (by positivity), Nat.floor_div_eq_div]
    simp [QRGen.target_size]
  · unfold QRGen.generate_positioning_qr_image
    rw [if_neg (by simpa using hst)]
    by_cases hlt : QRGen.target_size width height < modules_count * 3
    · simp only [if_pos hlt]
      constructor
      · intro _; omega
      · intro _; trivial
    · simp only [if_neg hlt]
      constructor
      · intro h; exact absurd h (by simp)
      · intro h; omega
  · intro hge
    unfold QRGen.generate_positioning_qr_image
    rw [if_neg (by simpa using hst), if_neg (by omega)]

/-- Witness for the amended C2 at a concrete input (21-module barcode on
a 100 × 100 panel of a registered screen type). -/
theorem c2_generate_qr_witness :
    "ED060XC3" ∈ QRGen.SCREEN_TYPES ∧ QRGen.GenSpec 21 "10.0.0.1" "ED060XC3" 100 100 :=
  ⟨by decide, c2_generate_qr_amended 21 "10.0.0.1" "ED060XC3" 100 100 (by decide)⟩

/-- C10. Every marker emitted by `detect_qr_positions` carries a rotation
that is exactly one of 0°, 90°, 180° or 270°: the raw `atan2` top-edge
angle is reduced modulo 360 and snapped to the nearest standard
orientation, so downstream placements never contain a continuous
rotation value. -/
theorem c10_detected_rotation_quantized (corners : List (ℝ × ℝ)) :
    Detect.detect_rotation corners = 0 ∨ Detect.detect_rotation corners = 90 ∨
    Detect.detect_rotation corners = 180 ∨ Detect.detect_rotation corners = 270 := by
  simp only [Detect.detect_rotation, Detect.snap_rotation]
  split_ifs <;> simp

theorem sideLen_nonneg (p q : ℝ × ℝ) : 0 ≤ Perspective.sideLen p q :=
  Real.sqrt_nonneg _

theorem norm2_nonneg (v : ℝ × ℝ) : 0 ≤ Perspective.norm2 v := Real.sqrt_nonneg _

theorem norm2_eq_zero_iff (v : ℝ × ℝ) : Perspective.norm2 v = 0 ↔ v = (0, 0) := by
  unfold Perspective.norm2
  rw [Real.sqrt_eq_zero (by positivity)]
  constructor
  · intro h
    have h1 : v.1 = 0 := by nlinarith [sq_nonneg v.1, sq_nonneg v.2]
    have h2 : v.2 = 0 := by nlinarith [sq_nonneg v.1, sq_nonneg v.2]
    exact Prod.ext_iff.mpr ⟨h1, h2⟩
  · rintro h
    rw [h]
    norm_num

theorem norm2_pos_iff (v : ℝ × ℝ) : 0 < Perspective.norm2 v ↔ v ≠ (0, 0) := by
  constructor
  · intro h hv
    rw [(norm2_eq_zero_iff v).mpr hv] at h
    exact lt_irrefl 0 h
  · intro hne
    exact lt_of_le_of_ne (norm2_nonneg v)
      (fun h => hne ((norm2_eq_zero_iff v).mp h.symm))

theorem norm2_vsub_comm (p q : ℝ × ℝ) :
    Perspective.norm2 (Perspective.vsub p q) = Perspective.norm2 (Perspective.vsub q p) := by
  unfold Perspective.norm2 Perspective.vsub
  congr 1
  ring

theorem unit_interval_mul (a b : ℝ) (ha : 0 ≤ a ∧ a ≤ 1) (hb : 0 ≤ b ∧ b ≤ 1) :
    0 ≤ a * b ∧ a * b ≤ 1 :=
  ⟨mul_nonneg ha.1 hb.1, mul_le_one₀ ha.2 hb.1 hb.2⟩

theorem unit_interval_mul_eq_one (a b : ℝ) (ha : 0 ≤ a ∧ a ≤ 1) (hb : 0 ≤ b ∧ b ≤ 1) :
    a * b = 1 ↔ a = 1 ∧ b = 1 := by
  constructor
  · intro h
    have h1 : a * b ≤ a := mul_le_of_le_one_right ha.1 hb.2
    have h2 : (1 : ℝ) ≤ a := h ▸ h1
    have ha1 : a = 1 := le_antisymm ha.2 h2
    subst ha1
    rw [one_mul] at h
    exact ⟨rfl, h⟩
  · rintro ⟨rfl, rfl⟩
    ring

theorem ratioPair_bounds (a b : ℝ) (ha : 0 ≤ a) (hb : 0 ≤ b) :
    0 ≤ Perspective.ratioPair a b ∧ Perspective.ratioPair a b ≤ 1 := by
  unfold Perspective.ratioPair
  split_ifs with h
  · exact ⟨div_nonneg (le_min ha hb) (le_of_lt h), (div_le_one h).mpr min_le_max⟩
  · norm_num

theorem ratioPair_eq_one_iff (a b : ℝ) :
    Perspective.ratioPair a b = 1 ↔ a = b ∧ 0 < a := by
  unfold Perspective.ratioPair
  split_ifs with h
  · rw [div_eq_one_iff_eq (ne_of_gt h)]
    constructor
    · intro hmm
      have hab : a = b := by
        rcases le_total a b with hle | hle
        · rw [min_eq_left hle, max_eq_right hle] at hmm
          exact hmm
        · rw [min_eq_right hle, max_eq_left hle] at hmm
          exact hmm.symm
      subst hab
      simp only [max_self] at h
      exact ⟨rfl, h⟩
    · rintro ⟨rfl, hpos⟩
      rw [min_self, max_self]
  · constructor
    · intro h0
      norm_num at h0
    · rintro ⟨rfl, hpos⟩
      rw [max_self] at h
      exact absurd hpos h

theorem angleFactor_bounds (a b c : ℝ × ℝ) :
    0 ≤ Perspective.angleFactor a b c ∧ Perspective.angleFactor a b c ≤ 1 := by
  unfold Perspective.angleFactor
  refine ⟨le_max_left _ _, ?_⟩
  have hpi : (0 : ℝ) < Real.pi / 2 := by positivity
  have h : 0 ≤ |Perspective.angleAt a b c - Real.pi / 2| / (Real.pi / 2) :=
    div_nonneg (abs_nonneg _) (le_of_lt hpi)
  apply max_le (by norm_num)
  linarith

theorem max_zero_eq_one_iff (x : ℝ) : max 0 x = 1 ↔ x = 1 := by
  constructor
  · intro h
    rcases le_total x 0 with hx | hx
    · rw [max_eq_left hx] at h
      norm_num at h
    · rwa [max_eq_right hx] at h
  · rintro rfl
    norm_num

theorem clip1_eq_zero_iff (x : ℝ) : Perspective.clip1 x = 0 ↔ x = 0 := by
  unfold Perspective.clip1
  constructor
  · intro h
    rcases le_total 1 x with hx | hx
    · rw [min_eq_left hx] at h
      norm_num at h
      -- h : max (-1) 1 = 0 is false
    · rw [min_eq_right hx] at h
      rcases le_total x (-1) with hy | hy
      · rw [max_eq_left hy] at h
        norm_num at h
      · rwa [max_eq_right hy] at h
  · rintro rfl
    norm_num

theorem angleFactor_eq_one_iff (a b c : ℝ × ℝ) :
    Perspective.angleFactor a b c = 1 ↔ Perspective.angleAt a b c = Real.pi / 2 := by
  unfold Perspective.angleFactor
  rw [max_zero_eq_one_iff]
  have hpi : (0 : ℝ) < Real.pi / 2 := by positivity
  constructor
  · intro h
    have habs : |Perspective.angleAt a b c - Real.pi / 2| / (Real.pi / 2) = 0 := by linarith
    rw [div_eq_zero_iff] at habs
    rcases habs with habs | habs
    · have := abs_eq_zero.mp habs
      linarith
    · exact absurd habs (ne_of_gt hpi)
  · intro h
    rw [h]
    simp

theorem angleAt_eq_pi_div_two_iff (a b c : ℝ × ℝ) :
    Perspective.angleAt a b c = Real.pi / 2 ↔
      Perspective.dot (Perspective.vsub a b) (Perspective.vsub c b) /
        (Perspective.norm2 (Perspective.vsub a b) * Perspective.norm2 (Perspective.vsub c b))
        = 0 := by
  unfold Perspective.angleAt
  rw [Real.arccos_eq_pi_div_two, clip1_eq_zero_iff]

/-- C3. For every quadrilateral given as a list of 4 corner points, the
rectangularity score lies in [0, 1], and it equals exactly 1.0 if and
only if all four interior angles are exactly 90° and both pairs of
opposite sides have equal lengths (a perfect rectangle). -/
theorem c3_rectangularity_score_correct (p0 p1 p2 p3 : ℝ × ℝ) :
    0 ≤ Perspective.calculate_rectangularity_score [p0, p1, p2, p3] ∧
    Perspective.calculate_rectangularity_score [p0, p1, p2, p3] ≤ 1 ∧
    (Perspective.calculate_rectangularity_score [p0, p1, p2, p3] = 1 ↔
      Perspective.IsPerfectRectangle p0 p1 p2 p3) := by
  have hs : Perspective.calculate_rectangularity_score [p0, p1, p2, p3]
      = Perspective.score4 p0 p1 p2 p3 := rfl
  rw [hs]
  unfold Perspective.score4
  have hR1 := ratioPair_bounds (Perspective.sideLen p0 p1) (Perspective.sideLen p2 p3)
    (sideLen_nonneg _ _) (sideLen_nonneg _ _)
  have hR2 := ratioPair_bounds (Perspective.sideLen p1 p2) (Perspective.sideLen p3 p0)
    (sideLen_nonneg _ _) (sideLen_nonneg _ _)
  have hF0 := angleFactor_bounds p3 p0 p1
  have hF1 := angleFactor_bounds p0 p1 p2
  have hF2 := angleFactor_bounds p1 p2 p3
  have hF3 := angleFactor_bounds p2 p3 p0
  have hRR := unit_interval_mul _ _ hR1 hR2
  have hF01 := unit_interval_mul _ _ hF0 hF1
  have hF012 := unit_interval_mul _ _ hF01 hF2
  have hF0123 := unit_interval_mul _ _ hF012 hF3
  have hall := unit_interval_mul _ _ hRR hF0123
  refine ⟨hall.1, hall.2, ?_⟩
  rw [unit_interval_mul_eq_one _ _ hRR hF0123,
      unit_interval_mul_eq_one _ _ hR1 hR2,
      unit_interval_mul_eq_one _ _ hF012 hF3,
      unit_interval_mul_eq_one _ _ hF01 hF2,
      unit_interval_mul_eq_one _ _ hF0 hF1,
      ratioPair_eq_one_iff (Perspective.sideLen p0 p1) (Perspective.sideLen p2 p3),
      ratioPair_eq_one_iff (Perspective.sideLen p1 p2) (Perspective.sideLen p3 p0),
      angleFactor_eq_one_iff p3 p0 p1, angleFactor_eq_one_iff p0 p1 p2,
      angleFactor_eq_one_iff p1 p2 p3, angleFactor_eq_one_iff p2 p3 p0,
      angleAt_eq_pi_div_two_iff p3 p0 p1, angleAt_eq_pi_div_two_iff p0 p1 p2,
      angleAt_eq_pi_div_two_iff p1 p2 p3, angleAt_eq_pi_div_two_iff p2 p3 p0]
  constructor
  · rintro ⟨⟨⟨h1, h1p⟩, ⟨h2, h2p⟩⟩, ⟨⟨hq0, hq1⟩, hq2⟩, hq3⟩
    have hs01 : 0 < Perspective.sideLen p0 p1 := h1p
    have hs23 : 0 < Perspective.sideLen p2 p3 := h1 ▸ h1p
    have hs12 : 0 < Perspective.sideLen p1 p2 := h2p
    have hs30 : 0 < Perspective.sideLen p3 p0 := h2 ▸ h2p
    have c10 : 0 < Perspective.norm2 (Perspective.vsub p1 p0) := hs01
    have c21 : 0 < Perspective.norm2 (Perspective.vsub p2 p1) := hs12
    have c32 : 0 < Perspective.norm2 (Perspective.vsub p3 p2) := hs23
    have c03 : 0 < Perspective.norm2 (Perspective.vsub p0 p3) := hs30
    have c01 : 0 < Perspective.norm2 (Perspective.vsub p0 p1) := by
      rw [norm2_vsub_comm]; exact c10
    have c12 : 0 < Perspective.norm2 (Perspective.vsub p1 p2) := by
      rw [norm2_vsub_comm]; exact c21
    have c23 : 0 < Perspective.norm2 (Perspective.vsub p2 p3) := by
      rw [norm2_vsub_comm]; exact c32
    have c30 : 0 < Perspective.norm2 (Perspective.vsub p3 p0) := by
      rw [norm2_vsub_comm]; exact c03
    rw [div_eq_zero_iff] at hq0 hq1 hq2 hq3
    have hd0 := hq0.resolve_right (ne_of_gt (mul_pos c30 c10))
    have hd1 := hq1.resolve_right (ne_of_gt (mul_pos c01 c21))
    have hd2 := hq2.resolve_right (ne_of_gt (mul_pos c12 c32))
    have hd3 := hq3.resolve_right (ne_of_gt (mul_pos c23 c03))
    exact ⟨h1, h2,
      ⟨(norm2_pos_iff _).mp c30, (norm2_pos_iff _).mp c10, hd0⟩,
      ⟨(norm2_pos_iff _).mp c01, (norm2_pos_iff _).mp c21, hd1⟩,
      ⟨(norm2_pos_iff _).mp c12, (norm2_pos_iff _).mp c32, hd2⟩,
      ⟨(norm2_pos_iff _).mp c23, (norm2_pos_iff _).mp c03, hd3⟩⟩
  · rintro ⟨h1, h2, ⟨hv30, hv10, hd0⟩, ⟨hv01, hv21, hd1⟩, ⟨hv12, hv32, hd2⟩, ⟨hv23, hv03, hd3⟩⟩
    have hs01 : 0 < Perspective.sideLen p0 p1 := (norm2_pos_iff _).mpr hv10
    have hs12 : 0 < Perspective.sideLen p1 p2 := (norm2_pos_iff _).mpr hv21
    refine ⟨⟨⟨h1, hs01⟩, ⟨h2, hs12⟩⟩, ⟨⟨?_, ?_⟩, ?_⟩, ?_⟩
    · rw [hd0]; exact zero_div _
    · rw [hd1]; exact zero_div _
    · rw [hd2]; exact zero_div _
    · rw [hd3]; exact zero_div _

theorem applyHom_id (p : ℝ × ℝ) : Perspective.applyHom Perspective.idHom p = p := by
  unfold Perspective.applyHom Perspective.idHom
  simp

theorem applyHom_id_fun : Perspective.applyHom Perspective.idHom = id :=
  funext applyHom_id

theorem cpdScores_length (l : List Detect.QRPositionData) :
    (Perspective.cpdScores l).length = l.length := by
  simp [Perspective.cpdScores]

theorem cpd_ge2_eq (fit : List (ℝ × ℝ) → List (ℝ × ℝ) → Option Perspective.Homography)
    (l : List Detect.QRPositionData) (aspect : ℝ) (h2 : ¬ l.length < 2) :
    Perspective.correct_perspective_distortion fit l aspect =
      (l.zip (Perspective.cpdScores l)).map (fun qs =>
        ⟨qs.1, Perspective.applyHom (Perspective.cpdHomography fit l aspect) qs.1.center,
         qs.1.corners.map (Perspective.applyHom (Perspective.cpdHomography fit l aspect)),
         qs.1.screen_corners.map (Perspective.applyHom (Perspective.cpdHomography fit l aspect)),
         qs.2⟩) := by
  simp only [Perspective.correct_perspective_distortion]
  rw [if_neg h2]

theorem map_comp_fst_zip {α β γ : Type} (f : α → γ) (l : List α) (s : List β)
    (h : l.length ≤ s.length) :
    (l.zip s).map (fun p => f p.1) = l.map f := by
  rw [show (fun p : α × β => f p.1) = f ∘ Prod.fst from rfl, ← List.map_map,
    List.map_fst_zip _ _ h]

theorem cpd_hom_projections
    (fit : List (ℝ × ℝ) → List (ℝ × ℝ) → Option Perspective.Homography)
    (l : List Detect.QRPositionData) (aspect : ℝ) (h2 : ¬ l.length < 2) :
    Perspective.HomCorrected fit l aspect (Perspective.cpdHomography fit l aspect) := by
  have hlen : l.length ≤ (Perspective.cpdScores l).length := by
    rw [cpdScores_length]
  refine ⟨?_, ?_, ?_⟩
  · rw [cpd_ge2_eq fit l aspect h2, List.map_map]
    exact map_comp_fst_zip
      (fun qr => Perspective.applyHom (Perspective.cpdHomography fit l aspect) qr.center)
      l (Perspective.cpdScores l) hlen
  · rw [cpd_ge2_eq fit l aspect h2, List.map_map]
    exact map_comp_fst_zip
      (fun qr => qr.corners.map (Perspective.applyHom (Perspective.cpdHomography fit l aspect)))
      l (Perspective.cpdScores l) hlen
  · rw [cpd_ge2_eq fit l aspect h2, List.map_map]
    exact map_comp_fst_zip
      (fun qr => qr.screen_corners.map
        (Perspective.applyHom (Perspective.cpdHomography fit l aspect)))
      l (Perspective.cpdScores l) hlen

theorem cpd_identity_of_hom_id
    (fit : List (ℝ × ℝ) → List (ℝ × ℝ) → Option Perspective.Homography)
    (l : List Detect.QRPositionData) (aspect : ℝ) (h2 : ¬ l.length < 2)
    (hH : Perspective.cpdHomography fit l aspect = Perspective.idHom) :
    Perspective.IdentityCorrected fit l aspect := by
  obtain ⟨hc, hcor, hsc⟩ := cpd_hom_projections fit l aspect h2
  rw [hH, applyHom_id_fun] at hc hcor hsc
  refine ⟨?_, ?_, ?_⟩
  · rw [hc]; simp
  · rw [hcor]; simp
  · rw [hsc]; simp

theorem cpd_lt2_identity
    (fit : List (ℝ × ℝ) → List (ℝ × ℝ) → Option Perspective.Homography)
    (l : List Detect.QRPositionData) (aspect : ℝ) (h2 : l.length < 2) :
    Perspective.IdentityCorrected fit l aspect := by
  unfold Perspective.IdentityCorrected
  simp only [Perspective.correct_perspective_distortion, if_pos h2, List.map_map]
  exact ⟨rfl, rfl, rfl⟩

theorem cpd_length (fit : List (ℝ × ℝ) → List (ℝ × ℝ) → Option Perspective.Homography)
    (l : List Detect.QRPositionData) (aspect : ℝ) :
    (Perspective.correct_perspective_distortion fit l aspect).length = l.length := by
  unfold Perspective.correct_perspective_distortion
  split_ifs with h
  · simp
  · simp [List.length_zip, cpdScores_length]

theorem cpd_originals (fit : List (ℝ × ℝ) → List (ℝ × ℝ) → Option Perspective.Homography)
    (l : List Detect.QRPositionData) (aspect : ℝ) :
    (Perspective.correct_perspective_distortion fit l aspect).map
      Perspective.CorrectedQRData.original = l := by
  by_cases h2 : l.length < 2
  · unfold Perspective.correct_perspective_distortion
    rw [if_pos h2, List.map_map]
    exact List.map_id l
  · have hlen : l.length ≤ (Perspective.cpdScores l).length := by
      rw [cpdScores_length]
    rw [cpd_ge2_eq fit l aspect h2, List.map_map]
    exact List.map_fst_zip _ _ hlen

theorem cpdIdealCorners_count (l : List Detect.QRPositionData) (aspect : ℝ)
    (h4 : ∀ qr ∈ l, qr.screen_corners.length = 4) :
    (Perspective.cpdIdealCorners l aspect).length = 4 * l.length := by
  unfold Perspective.cpdIdealCorners
  have hfilter : ((l.zip (Perspective.cpdEstimates l aspect)).filter
      (fun qe => !qe.1.screen_corners.isEmpty))
      = l.zip (Perspective.cpdEstimates l aspect) := by
    apply List.filter_eq_self.mpr
    intro qe hqe
    have h4' := h4 qe.1 (List.of_mem_zip hqe).1
    have hne : qe.1.screen_corners ≠ [] := by
      intro hnil
      rw [hnil] at h4'
      simp at h4'
    simp [List.isEmpty_iff, hne]
  rw [hfilter, List.length_flatMap]
  simp only [Function.comp_def]
  have hconst : ((l.zip (Perspective.cpdEstimates l aspect)).map (fun qe =>
      (Perspective.calculate_ideal_rectangle qe.1.center
        (Perspective.cpdMedianScale l aspect)
        (Perspective.cpdMedianScale l aspect / aspect) qe.2.2.2).length))
      = (l.zip (Perspective.cpdEstimates l aspect)).map (fun _ => 4) := by
    apply List.map_congr_left
    intro qe _
    simp [Perspective.calculate_ideal_rectangle]
  rw [hconst]
  have hzlen : (l.zip (Perspective.cpdEstimates l aspect)).length = l.length := by
    simp [List.length_zip, Perspective.cpdEstimates]
  simp [List.map_const', List.sum_replicate, smul_eq_mul, hzlen]
  ring

/-- C4. For every list of detected markers, perspective correction is
total (no error reaches the caller; one output per marker, originals
preserved): with fewer than 2 markers, with fewer than 4 collected
point pairs per corner (8 corner correspondences), or when the external
homography fit fails, it falls back to the identity transform — every
corrected center and corner equals the original — and when the fit
succeeds on the available correspondences the fitted homography is
applied; for decoder-produced markers (exactly 4 screen corners each)
4 correspondences per marker are always collected, so with ≥ 2 markers
the estimator is consulted. -/
theorem c4_perspective_fallback
    (fit : List (ℝ × ℝ) → List (ℝ × ℝ) → Option Perspective.Homography)
    (l : List Detect.QRPositionData) (known_aspect_ratio : ℝ) :
    Perspective.CorrectionSpec fit l known_aspect_ratio := by
  refine ⟨cpd_length fit l known_aspect_ratio, cpd_originals fit l known_aspect_ratio,
    fun h2 => cpd_lt2_identity fit l known_aspect_ratio h2, ?_, ?_, ?_,
    fun h4 => cpdIdealCorners_count l known_aspect_ratio h4⟩
  · intro h2 hlt
    apply cpd_identity_of_hom_id fit l known_aspect_ratio (by omega)
    unfold Perspective.cpdHomography
    rw [if_neg (by omega)]
  · intro h2 hnone
    apply cpd_identity_of_hom_id fit l known_aspect_ratio (by omega)
    unfold Perspective.cpdHomography
    split_ifs with h8
    · rw [hnone]; rfl
    · rfl
  · intro H h2 h8 hsome
    have hproj := cpd_hom_projections fit l known_aspect_ratio (by omega)
    unfold Perspective.cpdHomography at hproj
    rw [if_pos h8, hsome] at hproj
    exact hproj

/-- Witness for C4 at a concrete one-marker input and an always-failing
estimator. -/
theorem c4_witness :
    Perspective.CorrectionSpec (fun _ _ => none) [Detect.c6QR] (29 / 20) :=
  c4_perspective_fallback _ _ _

/-- Witness instance for C3: a concrete unit square is a perfect
rectangle and scores exactly 1.0. -/
theorem c3_witness :
    Perspective.IsPerfectRectangle (0, 0) (1, 0) (1, 1) (0, 1) ∧
    Perspective.calculate_rectangularity_score [(0, 0), (1, 0), (1, 1), (0, 1)] = 1 := by
  have hrect : Perspective.IsPerfectRectangle (0, 0) (1, 0) (1, 1) (0, 1) := by
    unfold Perspective.IsPerfectRectangle Perspective.RightAngleAt
      Perspective.sideLen Perspective.norm2 Perspective.vsub Perspective.dot
    norm_num [Prod.ext_iff]
  exact ⟨hrect, ((c3_rectangularity_score_correct (0, 0) (1, 0) (1, 1) (0, 1)).2.2).mpr hrect⟩

/-- C6 (amended). The physical-assembly scale of
`calculate_physical_positions_from_qr` is the single global factor
`150 mm / (mean detected screen pixel width)` — an assumed typical
screen width, not the screen types' physical active-area sizes, which
the function never consults (relabeling every screen type leaves the
scale unchanged) — and that one factor multiplies every screen's
translated top-left position alongside a fixed 20-unit margin. -/
theorem c6_physical_scale_amended (position_data : List Detect.QRPositionData)
    (f : String → String) :
    (Detect.calculate_physical_positions_from_qr position_data =
      (position_data.filterMap Detect.screenDataOf).map (fun sc =>
        (sc.hostname,
         { x := (sc.screen_top_left.1 -
               Detect.sdMinX (position_data.filterMap Detect.screenDataOf)) *
               Detect.code_global_scale (position_data.filterMap Detect.screenDataOf) + 20,
           y := (sc.screen_top_left.2 -
               Detect.sdMinY (position_data.filterMap Detect.screenDataOf)) *
               Detect.code_global_scale (position_data.filterMap Detect.screenDataOf) + 20,
           rotation := sc.rotation,
           screen_type := sc.screen_type,
           scale_factor := Detect.code_global_scale (position_data.filterMap Detect.screenDataOf),
           detected_width := sc.screen_width_px *
             Detect.code_global_scale (position_data.filterMap Detect.screenDataOf),
           detected_height := sc.screen_height_px *
             Detect.code_global_scale (position_data.filterMap Detect.screenDataOf) }))) ∧
    Detect.code_global_scale ((position_data.filterMap Detect.screenDataOf).map
        (Detect.ScreenData.retype f))
      = Detect.code_global_scale (position_data.filterMap Detect.screenDataOf) := by
  constructor
  · unfold Detect.calculate_physical_positions_from_qr
    cases h : position_data.filterMap Detect.screenDataOf with
    | nil => simp
    | cons s ss => rfl
  · unfold Detect.code_global_scale
    rw [List.map_map, List.length_map]
    rfl

/-- C6 counterexample: for a concrete single ED060XC3 marker whose
detected screen box is 100 px wide, the code's global scale is
`150 / 100 = 1.5` mm/px (and the emitted position uses it), while the
scale the claim describes — the screen type's known physical active-area
width (122.37 mm for ED060XC3, per the repository's own screen data)
divided by the corrected pixel size, averaged — is `1.2237` mm/px. -/
theorem c6_counterexample :
    Detect.calculate_physical_positions_from_qr [Detect.c6QR] =
      [("10.0.0.1",
        { x := 20, y := 20, rotation := 0, screen_type := "ED060XC3",
          scale_factor := 3 / 2, detected_width := 150, detected_height := 75 })] ∧
    Detect.spec_global_scale ([Detect.c6QR].filterMap Detect.screenDataOf)
      = 12237 / 10000 ∧
    (3 / 2 : ℝ) ≠ 12237 / 10000 := by
  have hsd : Detect.screenDataOf Detect.c6QR =
      some { hostname := "10.0.0.1", screen_type := "ED060XC3", rotation := 0,
             qr_center := (50, 25), screen_top_left := (0, 0),
             screen_width_px := 100, screen_height_px := 50 } := by
    unfold Detect.screenDataOf Detect.c6QR Detect.rlistMin Detect.rlistMax
    simp only [List.foldl]
    norm_num [min_def, max_def, Prod.ext_iff]
  have hfm : [Detect.c6QR].filterMap Detect.screenDataOf =
      [{ hostname := "10.0.0.1", screen_type := "ED060XC3", rotation := 0,
         qr_center := (50, 25), screen_top_left := (0, 0),
         screen_width_px := 100, screen_height_px := 50 }] := by
    simp [List.filterMap, hsd]
  refine ⟨?_, ?_, by norm_num⟩
  · unfold Detect.calculate_physical_positions_from_qr
    rw [hfm]
    simp only [List.map]
    unfold Detect.code_global_scale Detect.sdMinX Detect.sdMinY Detect.rlistMin
    norm_num [Prod.ext_iff]
  · rw [hfm]
    unfold Detect.spec_global_scale Detect.active_area_width_mm
    norm_num
